import Mathlib

/-!
Verification of the `loadbalancer` HTTP/1.1 reverse proxy.

The development shallowly embeds the connection handler of `src/main.rs`
(`handle_connection`, `connect_to_upstream`, `send_response`) together with
the parts of the `request` and `response` codec modules that the handler
calls.  The codec modules themselves are not part of the visible source
slice; where a codec function is needed it is modelled from the
specification and marked as such in its doc comment.

Socket I/O is replaced by oracles: each iteration of the serving loop
consumes a `ServeStep` record holding the result of the three I/O
operations the loop can perform (read a request from the client, write the
forwarded request to the upstream, read the response from the upstream).
The handler produces a trace of externally observable events (upstream
connection attempt, request forwarded upstream, response sent to the
client) plus a flag saying whether the handler returned (tore the
connection down) or is still serving when the oracle list runs out.
-/

namespace LoadBalancer

/-- One HTTP header as a (name, value) pair. -/
structure Header where
  name : String
  value : String
deriving DecidableEq, Repr

/-- A parsed HTTP request, as produced by `request::read_from_stream`:
method, target path, version, ordered header pairs, body bytes. -/
structure Request where
  method : String
  path : String
  version : String
  headers : List Header
  body : List Nat
deriving DecidableEq, Repr

/-- A parsed or synthesized HTTP response: status code, reason phrase,
version, ordered header pairs, body bytes. -/
structure Response where
  status : Nat
  reason : String
  version : String
  headers : List Header
  body : List Nat
deriving DecidableEq, Repr

/-- The error enum of the `request` codec module, as matched on by
`handle_connection` in `src/main.rs` (lines 133-151): incomplete request
carrying the byte count, malformed request carrying a reason, invalid
content-length, content-length mismatch, body too large, and an I/O
connection error carrying the underlying error text. -/
inductive RequestError where
  | IncompleteRequest (bytesRead : Nat)
  | MalformedRequest (reason : String)
  | InvalidContentLength
  | ContentLengthMismatch
  | RequestBodyTooLarge
  | ConnectionError (ioError : String)
deriving DecidableEq, Repr

/-- `ProxyState` from `src/main.rs` lines 28-40: the three inert
configuration knobs plus the upstream address list. -/
structure ProxyState where
  active_health_check_interval : Nat
  active_health_check_path : String
  max_requests_per_minute : Nat
  upstream_addresses : List String
deriving DecidableEq, Repr

/-- Externally observable actions of one connection handler run.  A
response sent to the client carries a provenance flag: `synth := true`
when the response was synthesized locally by `make_http_error`,
`synth := false` when it was read from the upstream and forwarded
verbatim. -/
inductive Event where
  | connectAttempt (addr : String)
  | forwardedUpstream (addr : String) (req : Request)
  | sentToClient (synth : Bool) (resp : Response)
deriving DecidableEq, Repr

deriving instance DecidableEq for Except

/-- The I/O oracle for one iteration of the serving loop: the result of
`request::read_from_stream` on the client socket; whether
`request::write_to_stream` to the upstream succeeds (consulted only after
a successful read); and the result of `response::read_from_stream` on the
upstream socket (consulted only after a successful write). -/
structure ServeStep where
  readReq : Except RequestError Request
  writeOk : Bool
  readResp : Except String Response
deriving DecidableEq, Repr

/-- The reason phrase of the status codes the proxy synthesizes. -/
def reasonPhrase : Nat → String
  | 400 => "Bad Request"
  | 413 => "Payload Too Large"
  | 502 => "Bad Gateway"
  | 503 => "Service Unavailable"
  | _ => ""

/-- Modelled from the spec: `response::make_http_error` builds a minimal
well-formed error response for a status code, with no body and a
`content-length: 0` header (spec section 4.4: every synthesized response
has no body and a content-length: 0 header). -/
def make_http_error (status : Nat) : Response :=
  { status := status
    reason := reasonPhrase status
    version := "HTTP/1.1"
    headers := [⟨"content-length", "0"⟩]
    body := [] }

/-- Modelled from the spec: `request::extend_header_value` appends a value
to a named header of the request — if the header already exists, the new
value is appended to the existing value, comma-and-space separated,
preserving the prior value first; if the header is absent, it is created
with the given value (spec section 4.3, successful-parse step). -/
def extend_header_value (req : Request) (name value : String) : Request :=
  if req.headers.any (fun h => h.name == name) then
    { req with
      headers := req.headers.map (fun h =>
        if h.name == name then ⟨h.name, h.value ++ ", " ++ value⟩ else h) }
  else
    { req with headers := req.headers ++ [⟨name, value⟩] }

/-- Looks up the value of the first header with the given name. -/
def headerValue (headers : List Header) (name : String) : Option String :=
  match headers.find? (fun h => h.name == name) with
  | some h => some h.value
  | none => none

/-- `rng.gen_range(0..n)` of `connect_to_upstream`: a raw random draw
reduced to the range `[0, n)`.  The Rust call panics when `n = 0`; `main`
refuses to start with an empty upstream list, so every call has `n > 0`. -/
def gen_range (n raw : Nat) : Nat := raw % n

/-- The upstream address selection of `connect_to_upstream`
(`src/main.rs` lines 86-96): draw a random index uniformly in
`0..upstreams.length` and return the address at that index.  `getD` is
only consulted at its default for an empty list, which `main` rules out. -/
def connect_to_upstream_choice (upstreams : List String) (raw : Nat) : String :=
  upstreams.getD (gen_range upstreams.length raw) ""

/-- The error-to-status mapping inside `handle_connection`
(`src/main.rs` lines 144-151): parse failures map to 400, body-too-large
to 413, and the connection-error arm to 503. -/
def errorStatusCode : RequestError → Nat
  | .IncompleteRequest _ => 400
  | .MalformedRequest _ => 400
  | .InvalidContentLength => 400
  | .ContentLengthMismatch => 400
  | .RequestBodyTooLarge => 413
  | .ConnectionError _ => 503

/-- The serving loop of `handle_connection` (`src/main.rs` lines
128-194), driven by the oracle list.  Returns the event trace and `true`
when the loop returned (connection torn down), `false` when the oracle
list was exhausted with the loop still serving.  The match arms mirror
the Rust match in order: successful read; `IncompleteRequest(0)` returns
silently; `ConnectionError` returns silently; any other error synthesizes
an error response, sends it, and continues the loop. -/
def serveLoop (clientIp upstreamAddr : String) : List ServeStep → List Event × Bool
  | [] => ([], false)
  | step :: rest =>
    match step.readReq with
    | .ok req =>
      let req2 := extend_header_value req "x-forwarded-for" clientIp
      if step.writeOk then
        match step.readResp with
        | .ok resp =>
          let t := serveLoop clientIp upstreamAddr rest
          (.forwardedUpstream upstreamAddr req2 :: .sentToClient false resp :: t.1, t.2)
        | .error _ =>
          ([.forwardedUpstream upstreamAddr req2,
            .sentToClient true (make_http_error 502)], true)
      else
        ([.sentToClient true (make_http_error 502)], true)
    | .error (.IncompleteRequest 0) => ([], true)
    | .error (.ConnectionError _) => ([], true)
    | .error e =>
      let t := serveLoop clientIp upstreamAddr rest
      (.sentToClient true (make_http_error (errorStatusCode e)) :: t.1, t.2)

/-- `handle_connection` (`src/main.rs` lines 112-195): select an upstream
from the state, attempt the upstream connection (`connectOk` is the oracle
for `TcpStream::connect`), send 502 and return on failure, otherwise run
the serving loop over that single upstream connection. -/
def handleConnection (state : ProxyState) (clientIp : String) (raw : Nat)
    (connectOk : Bool) (steps : List ServeStep) : List Event × Bool :=
  let upstreamAddr := connect_to_upstream_choice state.upstream_addresses raw
  if connectOk then
    let t := serveLoop clientIp upstreamAddr steps
    (.connectAttempt upstreamAddr :: t.1, t.2)
  else
    ([.connectAttempt upstreamAddr, .sentToClient true (make_http_error 502)], true)

/-- Recognizes an upstream connection attempt event. -/
def isConnectAttempt : Event → Bool
  | .connectAttempt _ => true
  | _ => false

/-- Recognizes a forwarded-request event. -/
def isForward : Event → Bool
  | .forwardedUpstream _ _ => true
  | _ => false

/-- Recognizes a response-sent-to-client event, forwarded or
synthesized. -/
def isSend : Event → Bool
  | .sentToClient _ _ => true
  | _ => false

/-- Recognizes a locally synthesized response sent to the client with the
given status. -/
def isSynthSendWithStatus (status : Nat) : Event → Bool
  | .sentToClient synth resp => synth && resp.status == status
  | _ => false

/-- `send_response` (`src/main.rs` lines 98-110) with the
`peer_addr().unwrap()` made explicit: the result of
`client_conn.peer_addr()` is an oracle; on an error the unwrap panics
(`none`); on success the response write is attempted (a failed write is
logged and swallowed, so the event records the attempted send either
way). -/
def send_response_total (clientPeer : Except String String) (synth : Bool)
    (resp : Response) : Option Event :=
  match clientPeer with
  | .error _ => none
  | .ok _ => some (.sentToClient synth resp)

/-- The serving loop with every `peer_addr().unwrap()` on the client
socket made explicit: each send to the client goes through
`send_response_total`, so a failing `peer_addr` turns the whole run into
`none` (a panic of the connection task).  The `peer_addr` oracle is fixed
per socket: every call on the same socket reports the same result. -/
def serveLoopTotal (clientPeer : Except String String) (clientIp upstreamAddr : String) :
    List ServeStep → Option (List Event × Bool)
  | [] => some ([], false)
  | step :: rest =>
    match step.readReq with
    | .ok req =>
      let req2 := extend_header_value req "x-forwarded-for" clientIp
      if step.writeOk then
        match step.readResp with
        | .ok resp => do
          let ev ← send_response_total clientPeer false resp
          let t ← serveLoopTotal clientPeer clientIp upstreamAddr rest
          pure (.forwardedUpstream upstreamAddr req2 :: ev :: t.1, t.2)
        | .error _ => do
          let ev ← send_response_total clientPeer true (make_http_error 502)
          pure ([.forwardedUpstream upstreamAddr req2, ev], true)
      else do
        let ev ← send_response_total clientPeer true (make_http_error 502)
        pure ([ev], true)
    | .error (.IncompleteRequest 0) => some ([], true)
    | .error (.ConnectionError _) => some ([], true)
    | .error e => do
      let ev ← send_response_total clientPeer true (make_http_error (errorStatusCode e))
      let t ← serveLoopTotal clientPeer clientIp upstreamAddr rest
      pure (ev :: t.1, t.2)

/-- `handle_connection` with the `peer_addr().unwrap()` calls made
explicit: the entry unwrap on the client socket (`src/main.rs` line 113),
the unwrap on the upstream socket after a successful connect (line 124),
and the unwrap inside every `send_response` (line 99).  `none` models a
panic of the connection task. -/
def handleConnectionTotal (clientPeer upstreamPeer : Except String String)
    (state : ProxyState) (raw : Nat) (connectOk : Bool) (steps : List ServeStep) :
    Option (List Event × Bool) :=
  match clientPeer with
  | .error _ => none
  | .ok clientIp =>
    let upstreamAddr := connect_to_upstream_choice state.upstream_addresses raw
    if connectOk then
      match upstreamPeer with
      | .error _ => none
      | .ok _ => do
        let t ← serveLoopTotal clientPeer clientIp upstreamAddr steps
        pure (.connectAttempt upstreamAddr :: t.1, t.2)
    else do
      let ev ← send_response_total clientPeer true (make_http_error 502)
      pure ([.connectAttempt upstreamAddr, ev], true)

/-- The no-pipelining check: scanning the trace with a flag recording
whether a forwarded request is still awaiting its client-visible
response, a second forward while one is outstanding is rejected, and a
send to the client clears the flag. -/
def seqOk : List Event → Bool → Bool
  | [], _ => true
  | .connectAttempt _ :: rest, outstanding => seqOk rest outstanding
  | .forwardedUpstream _ _ :: rest, outstanding =>
    if outstanding then false else seqOk rest true
  | .sentToClient _ _ :: rest, _ => seqOk rest false

/-- Holds of an event unless it is a request forwarded to an address
other than `ua`. -/
def forwardsTo (ua : String) : Event → Bool
  | .forwardedUpstream a _ => a == ua
  | _ => true

/-- Trace invariant of the serving loop: it never attempts an upstream
connection, every forward goes to the single upstream chosen at
connection start, no second request is forwarded before the previous
cycle sent the client a response, and no 503 is ever sent. -/
theorem serveLoop_invariant (ip ua : String) (steps : List ServeStep) :
    (∀ e ∈ (serveLoop ip ua steps).1, isConnectAttempt e = false) ∧
    (∀ e ∈ (serveLoop ip ua steps).1, forwardsTo ua e = true) ∧
    (seqOk (serveLoop ip ua steps).1 false = true) ∧
    (∀ e ∈ (serveLoop ip ua steps).1, isSynthSendWithStatus 503 e = false) := by
  induction steps with
  | nil => simp [serveLoop, seqOk]
  | cons step rest ih =>
    obtain ⟨iha, ihb, ihc, ihd⟩ := ih
    obtain ⟨rr, w, rp⟩ := step
    rcases rr with e | req
    · rcases e with n | s | _ | _ | _ | s
      · cases n with
        | zero => simp [serveLoop, seqOk]
        | succ m =>
          refine ⟨?_, ?_, ?_, ?_⟩ <;>
            simp only [serveLoop, List.mem_cons, forall_eq_or_imp, seqOk]
          · exact ⟨by simp [isConnectAttempt], iha⟩
          · exact ⟨by simp [forwardsTo], ihb⟩
          · exact ihc
          · exact ⟨by simp [isSynthSendWithStatus, errorStatusCode, make_http_error], ihd⟩
      · refine ⟨?_, ?_, ?_, ?_⟩ <;>
          simp only [serveLoop, List.mem_cons, forall_eq_or_imp, seqOk]
        · exact ⟨by simp [isConnectAttempt], iha⟩
        · exact ⟨by simp [forwardsTo], ihb⟩
        · exact ihc
        · exact ⟨by simp [isSynthSendWithStatus, errorStatusCode, make_http_error], ihd⟩
      · refine ⟨?_, ?_, ?_, ?_⟩ <;>
          simp only [serveLoop, List.mem_cons, forall_eq_or_imp, seqOk]
        · exact ⟨by simp [isConnectAttempt], iha⟩
        · exact ⟨by simp [forwardsTo], ihb⟩
        · exact ihc
        · exact ⟨by simp [isSynthSendWithStatus, errorStatusCode, make_http_error], ihd⟩
      · refine ⟨?_, ?_, ?_, ?_⟩ <;>
          simp only [serveLoop, List.mem_cons, forall_eq_or_imp, seqOk]
        · exact ⟨by simp [isConnectAttempt], iha⟩
        · exact ⟨by simp [forwardsTo], ihb⟩
        · exact ihc
        · exact ⟨by simp [isSynthSendWithStatus, errorStatusCode, make_http_error], ihd⟩
      · refine ⟨?_, ?_, ?_, ?_⟩ <;>
          simp only [serveLoop, List.mem_cons, forall_eq_or_imp, seqOk]
        · exact ⟨by simp [isConnectAttempt], iha⟩
        · exact ⟨by simp [forwardsTo], ihb⟩
        · exact ihc
        · exact ⟨by simp [isSynthSendWithStatus, errorStatusCode, make_http_error], ihd⟩
      · simp [serveLoop, seqOk]
    · rcases w with _ | _
      · simp [serveLoop, seqOk, isConnectAttempt, forwardsTo, isSynthSendWithStatus,
          make_http_error]
      · rcases rp with s | resp
        · simp [serveLoop, seqOk, isConnectAttempt, forwardsTo, isSynthSendWithStatus,
            make_http_error]
        · refine ⟨?_, ?_, ?_, ?_⟩ <;>
            simp only [serveLoop, if_true, List.mem_cons, forall_eq_or_imp, seqOk]
          · exact ⟨by simp [isConnectAttempt], by simp [isConnectAttempt], iha⟩
          · exact ⟨by simp [forwardsTo], by simp [forwardsTo], ihb⟩
          · exact ihc
          · exact ⟨by simp [isSynthSendWithStatus], by simp [isSynthSendWithStatus], ihd⟩

/-- When every `peer_addr()` call on the client socket succeeds, the
panic-aware serving loop agrees with the pure one. -/
theorem serveLoopTotal_ok (ip ua : String) (steps : List ServeStep) :
    serveLoopTotal (.ok ip) ip ua steps = some (serveLoop ip ua steps) := by
  induction steps with
  | nil => rfl
  | cons step rest ih =>
    obtain ⟨rr, w, rp⟩ := step
    rcases rr with e | req
    · rcases e with n | s | _ | _ | _ | s
      · cases n with
        | zero => rfl
        | succ m => simp [serveLoopTotal, serveLoop, send_response_total, ih]
      · simp [serveLoopTotal, serveLoop, send_response_total, ih]
      · simp [serveLoopTotal, serveLoop, send_response_total, ih]
      · simp [serveLoopTotal, serveLoop, send_response_total, ih]
      · simp [serveLoopTotal, serveLoop, send_response_total, ih]
      · rfl
    · rcases w with _ | _
      · simp [serveLoopTotal, serveLoop, send_response_total]
      · rcases rp with s | resp
        · simp [serveLoopTotal, serveLoop, send_response_total]
        · simp [serveLoopTotal, serveLoop, send_response_total, ih]

/-- Counting the residue class of `i` modulo `n` below `k * n`: exactly
`k` of the `k * n` raw draws reduce to each index `i < n`, which is the
uniformity of `gen_range` over any whole number of periods of the raw
generator. -/
theorem card_range_mul_filter_mod (n k i : Nat) (hn : 0 < n) (hi : i < n) :
    ((Finset.range (k * n)).filter (fun raw => raw % n = i)).card = k := by
  have himg : (Finset.range k).image (fun j => j * n + i) =
      (Finset.range (k * n)).filter (fun raw => raw % n = i) := by
    ext x
    simp only [Finset.mem_image, Finset.mem_filter, Finset.mem_range]
    constructor
    · rintro ⟨j, hj, rfl⟩
      refine ⟨?_, ?_⟩
      · calc j * n + i < j * n + n := by omega
          _ = (j + 1) * n := by ring
          _ ≤ k * n := Nat.mul_le_mul_right n hj
      · rw [Nat.add_comm, Nat.add_mul_mod_self_right]
        exact Nat.mod_eq_of_lt hi
    · rintro ⟨hx, hmod⟩
      refine ⟨x / n, ?_, ?_⟩
      · exact (Nat.div_lt_iff_lt_mul hn).mpr hx
      · have hdm := Nat.div_add_mod x n
        rw [hmod] at hdm
        rw [Nat.mul_comm (x / n) n]
        exact hdm
  have hinj : Function.Injective (fun j => j * n + i) := by
    intro a b h
    have h2 : a * n = b * n := by
      have := Nat.add_right_cancel h
      exact this
    exact Nat.eq_of_mul_eq_mul_right hn h2
  rw [← himg, Finset.card_image_of_injective _ hinj, Finset.card_range]

/-- C1: for every client-fault parse failure returned by the request
codec on the serving-loop read — malformed request, incomplete request
with a positive byte count, invalid content-length, or content-length
mismatch — the proxy sends the client a synthesized 400 Bad Request
response and continues the serving loop without tearing down the client
connection (the remaining oracle stream is still served and the
termination flag is inherited from it); for a body-too-large failure it
sends a synthesized 413 Payload Too Large response and likewise
continues the loop. -/
theorem client_fault_recoverable_responses (ip ua : String) (n : Nat)
    (s : String) (w : Bool) (rp : Except String Response) (rest : List ServeStep) :
    (serveLoop ip ua (⟨.error (.IncompleteRequest (n + 1)), w, rp⟩ :: rest) =
      (.sentToClient true (make_http_error 400) :: (serveLoop ip ua rest).1,
        (serveLoop ip ua rest).2)) ∧
    (serveLoop ip ua (⟨.error (.MalformedRequest s), w, rp⟩ :: rest) =
      (.sentToClient true (make_http_error 400) :: (serveLoop ip ua rest).1,
        (serveLoop ip ua rest).2)) ∧
    (serveLoop ip ua (⟨.error .InvalidContentLength, w, rp⟩ :: rest) =
      (.sentToClient true (make_http_error 400) :: (serveLoop ip ua rest).1,
        (serveLoop ip ua rest).2)) ∧
    (serveLoop ip ua (⟨.error .ContentLengthMismatch, w, rp⟩ :: rest) =
      (.sentToClient true (make_http_error 400) :: (serveLoop ip ua rest).1,
        (serveLoop ip ua rest).2)) ∧
    (serveLoop ip ua (⟨.error .RequestBodyTooLarge, w, rp⟩ :: rest) =
      (.sentToClient true (make_http_error 413) :: (serveLoop ip ua rest).1,
        (serveLoop ip ua rest).2)) := by
  refine ⟨?_, ?_, ?_, ?_, ?_⟩ <;> simp [serveLoop, errorStatusCode]

/-- C2: every upstream-fault error — failure to connect to the selected
upstream, failure to write the forwarded request to the upstream socket,
or failure to read or parse the response from the upstream — makes the
proxy synthesize and send a 502 Bad Gateway response to the client and
then terminate the connection: the result is a closed trace ending in
the 502 with the termination flag set, consuming none of the remaining
oracle stream and containing no further upstream connection attempt. -/
theorem upstream_fault_fatal_502 (st : ProxyState) (ip ua : String)
    (raw : Nat) (steps rest : List ServeStep) (req : Request)
    (rp : Except String Response) (es : String) :
    (handleConnection st ip raw false steps =
      ([.connectAttempt (connect_to_upstream_choice st.upstream_addresses raw),
        .sentToClient true (make_http_error 502)], true)) ∧
    (serveLoop ip ua (⟨.ok req, false, rp⟩ :: rest) =
      ([.sentToClient true (make_http_error 502)], true)) ∧
    (serveLoop ip ua (⟨.ok req, true, .error es⟩ :: rest) =
      ([.forwardedUpstream ua (extend_header_value req "x-forwarded-for" ip),
        .sentToClient true (make_http_error 502)], true)) := by
  refine ⟨?_, ?_, ?_⟩ <;> simp [handleConnection, serveLoop]

/-- C3 (counterexample): a concrete client that connects and closes
without sending any byte — the first serving-loop read yields
`IncompleteRequest 0` — still causes an upstream connection attempt,
because `handle_connection` opens the upstream socket at connection
start, before the first read; so the claim that no upstream connection
is ever attempted for such a client is false (no response is sent, as
the second conjunct shows). -/
theorem zero_byte_close_counterexample :
    ((handleConnection ⟨10, "/", 0, ["10.1.1.1:80"]⟩ "127.0.0.1" 0 true
        [⟨.error (.IncompleteRequest 0), true, .error ""⟩]).1.any
      isConnectAttempt = true) ∧
    ((handleConnection ⟨10, "/", 0, ["10.1.1.1:80"]⟩ "127.0.0.1" 0 true
        [⟨.error (.IncompleteRequest 0), true, .error ""⟩]).1.any
      isSend = false) := by
  constructor <;> rfl

/-- C3 (amended): for every client that connects and then closes without
sending any byte, after the upstream connection attempt that
`handle_connection` makes unconditionally at connection start, the proxy
terminates the connection sending no response to the client and
forwarding nothing to the upstream: the whole trace is the single
connection-start upstream attempt. -/
theorem zero_byte_close_behavior (st : ProxyState) (ip : String) (raw : Nat)
    (w : Bool) (rp : Except String Response) (rest : List ServeStep) :
    handleConnection st ip raw true (⟨.error (.IncompleteRequest 0), w, rp⟩ :: rest) =
      ([.connectAttempt (connect_to_upstream_choice st.upstream_addresses raw)],
        true) := by
  simp [handleConnection, serveLoop]

/-- C4: for every client connection the upstream is selected exactly
once, at connection start (the trace contains exactly one connection
attempt and it is the head of the trace), that single upstream is used
for every forwarded request on the connection, and a response is sent to
the client for an outstanding forwarded request before any further
request is forwarded (no pipelining, responses in request order). -/
theorem single_upstream_no_pipelining (st : ProxyState) (ip : String)
    (raw : Nat) (cok : Bool) (steps : List ServeStep) :
    ((handleConnection st ip raw cok steps).1.countP isConnectAttempt = 1) ∧
    ((handleConnection st ip raw cok steps).1.head? =
      some (.connectAttempt (connect_to_upstream_choice st.upstream_addresses raw))) ∧
    ((handleConnection st ip raw cok steps).1.all
      (forwardsTo (connect_to_upstream_choice st.upstream_addresses raw)) = true) ∧
    (seqOk (handleConnection st ip raw cok steps).1 false = true) := by
  obtain ⟨ha, hb, hc, _⟩ :=
    serveLoop_invariant ip (connect_to_upstream_choice st.upstream_addresses raw) steps
  rcases cok with _ | _
  · refine ⟨?_, ?_, ?_, ?_⟩ <;>
      simp [handleConnection, seqOk, isConnectAttempt, forwardsTo, List.countP_cons]
  · refine ⟨?_, ?_, ?_, ?_⟩
    · simp only [handleConnection, if_true, List.countP_cons]
      rw [List.countP_eq_zero.mpr (fun a hma => by simp [ha a hma])]
      simp [isConnectAttempt]
    · simp [handleConnection]
    · simp only [handleConnection, if_true, List.all_cons]
      rw [List.all_eq_true.mpr hb]
      simp [forwardsTo]
    · simp only [handleConnection, if_true, seqOk]
      exact hc

/-- A header lookup that succeeds forces the existence check used by
`extend_header_value` to succeed as well. -/
theorem any_of_headerValue_some (headers : List Header) (nm v : String)
    (h : headerValue headers nm = some v) :
    headers.any (fun hh => hh.name == nm) = true := by
  induction headers with
  | nil => simp [headerValue, List.find?] at h
  | cons hd tl ih =>
    by_cases hn : hd.name == nm
    · simp [hn]
    · simp only [headerValue, List.find?, hn] at h
      simp [hn, ih h]

/-- One step of the header lookup. -/
theorem headerValue_cons (x : Header) (l : List Header) (nm : String) :
    headerValue (x :: l) nm =
      if x.name == nm then some x.value else headerValue l nm := by
  rcases hbe : x.name == nm with _ | _ <;> simp [headerValue, List.find?, hbe]

/-- Appending to an existing header: the first header named `nm` keeps
its prior value as a prefix, with the new value joined after a comma and
space. -/
theorem headerValue_extend_present (headers : List Header) (nm v ip : String)
    (h : headerValue headers nm = some v) :
    headerValue (headers.map (fun hh =>
        if hh.name == nm then ⟨hh.name, hh.value ++ ", " ++ ip⟩ else hh)) nm =
      some (v ++ ", " ++ ip) := by
  induction headers with
  | nil => simp [headerValue, List.find?] at h
  | cons hd tl ih =>
    rcases hbe : hd.name == nm with _ | _
    · simp only [headerValue_cons, hbe, Bool.false_eq_true, if_false] at h
      simp only [List.map_cons, hbe, Bool.false_eq_true, if_false, headerValue_cons]
      exact ih h
    · simp only [headerValue_cons, hbe, if_true] at h
      simp only [List.map_cons, hbe, if_true, headerValue_cons]
      simp only [Option.some.injEq] at h
      simp [hbe, h]

/-- Creating an absent header: when no header named `nm` exists, looking
up `nm` after appending `⟨nm, ip⟩` yields `ip`. -/
theorem headerValue_extend_absent (headers : List Header) (nm ip : String)
    (h : headers.any (fun hh => hh.name == nm) = false) :
    headerValue (headers ++ [⟨nm, ip⟩]) nm = some ip := by
  induction headers with
  | nil => simp [headerValue, List.find?]
  | cons hd tl ih =>
    simp only [List.any_cons, Bool.or_eq_false_iff] at h
    simp only [List.cons_append, headerValue, List.find?, h.1]
    simpa [headerValue] using ih h.2

/-- C5: for every successfully parsed request the proxy forwards
`extend_header_value req "x-forwarded-for" clientIp` (first conjunct:
the forwarded request on a successful cycle is exactly that mutation);
when the request has no `x-forwarded-for` header the mutation creates it
holding the client IP, and when the header is present its prior value is
preserved first and the client IP appended after a comma and space, so a
request carrying `x-forwarded-for: 10.0.0.1` from client `127.0.0.1` is
forwarded carrying both addresses, original first. -/
theorem x_forwarded_for_append (req : Request) (ip ua v : String)
    (rest : List ServeStep) (resp : Response) :
    ((serveLoop ip ua (⟨.ok req, true, .ok resp⟩ :: rest)).1.head? =
      some (.forwardedUpstream ua (extend_header_value req "x-forwarded-for" ip))) ∧
    (req.headers.any (fun hh => hh.name == "x-forwarded-for") = false →
      headerValue (extend_header_value req "x-forwarded-for" ip).headers
        "x-forwarded-for" = some ip) ∧
    (headerValue req.headers "x-forwarded-for" = some v →
      headerValue (extend_header_value req "x-forwarded-for" ip).headers
        "x-forwarded-for" = some (v ++ ", " ++ ip)) := by
  refine ⟨by simp [serveLoop], ?_, ?_⟩
  · intro h
    simp only [extend_header_value, h, Bool.false_eq_true, if_false]
    exact headerValue_extend_absent req.headers "x-forwarded-for" ip h
  · intro h
    simp only [extend_header_value,
      any_of_headerValue_some req.headers "x-forwarded-for" v h, if_true]
    exact headerValue_extend_present req.headers "x-forwarded-for" v ip h

/-- C5 witness: the concrete instance of the claim — a request already
carrying `x-forwarded-for: 10.0.0.1`, forwarded for client `127.0.0.1`,
carries both addresses with the original first; and a request without
the header gets it created with the client IP. -/
theorem x_forwarded_for_append_witness :
    (headerValue (extend_header_value
        ⟨"GET", "/", "HTTP/1.1", [⟨"host", "h"⟩, ⟨"x-forwarded-for", "10.0.0.1"⟩], []⟩
        "x-forwarded-for" "127.0.0.1").headers "x-forwarded-for" =
      some ("10.0.0.1" ++ ", " ++ "127.0.0.1")) ∧
    (headerValue (extend_header_value ⟨"GET", "/", "HTTP/1.1", [⟨"host", "h"⟩], []⟩
        "x-forwarded-for" "127.0.0.1").headers "x-forwarded-for" =
      some "127.0.0.1") :=
  ⟨(x_forwarded_for_append
      ⟨"GET", "/", "HTTP/1.1", [⟨"host", "h"⟩, ⟨"x-forwarded-for", "10.0.0.1"⟩], []⟩
      "127.0.0.1" "up" "10.0.0.1" [] (make_http_error 200)).2.2 (by rfl),
   (x_forwarded_for_append ⟨"GET", "/", "HTTP/1.1", [⟨"host", "h"⟩], []⟩
      "127.0.0.1" "up" "10.0.0.1" [] (make_http_error 200)).2.1 (by rfl)⟩

/-- C6: no synthesized 503 Service Unavailable response is ever sent to
a client on any execution path of the connection handler: the
error-to-status mapping does carry a ConnectionError-to-503 arm (first
conjunct), but every trace of the handler is free of synthesized sends
with status 503, because a connection error reading from the client
terminates the loop before the mapping is consulted. -/
theorem no_synthesized_503 (st : ProxyState) (ip s : String) (raw : Nat)
    (cok : Bool) (steps : List ServeStep) :
    (errorStatusCode (.ConnectionError s) = 503) ∧
    ((handleConnection st ip raw cok steps).1.all
      (fun e => !(isSynthSendWithStatus 503 e)) = true) := by
  obtain ⟨_, _, _, hd⟩ :=
    serveLoop_invariant ip (connect_to_upstream_choice st.upstream_addresses raw) steps
  refine ⟨rfl, ?_⟩
  rcases cok with _ | _
  · simp [handleConnection, isSynthSendWithStatus, make_http_error, isConnectAttempt]
  · simp only [handleConnection, if_true, List.all_cons]
    rw [List.all_eq_true.mpr (fun a hma => by simp [hd a hma])]
    simp [isSynthSendWithStatus, isConnectAttempt]

/-- C7 (counterexample): a client whose very first read yields an
incomplete request of 3 bytes — fewer bytes than a complete header
block, then close, with no successful earlier request on the connection
— receives a 400 response rather than a silent close, refuting the
claimed reading that without an earlier successful handshake context the
proxy simply closes without sending any response (and with it the
claimed equivalence of that reading with the 0-vs-positive byte-count
distinction). -/
theorem partial_close_counterexample :
    (serveLoop "127.0.0.1" "10.1.1.1:80"
        [⟨.error (.IncompleteRequest 3), true, .error ""⟩] =
      ([.sentToClient true (make_http_error 400)], false)) ∧
    ((serveLoop "127.0.0.1" "10.1.1.1:80"
        [⟨.error (.IncompleteRequest 3), true, .error ""⟩]).1.any isSend = true) := by
  constructor <;> rfl

/-- C7 (amended): a client that sends fewer bytes than a complete header
block and then closes yields a 400 response exactly when the byte count
is positive — regardless of whether any earlier request on the
connection succeeded — and the incomplete-with-0-bytes case closes
silently with no response. -/
theorem partial_close_amended (ip ua : String) (n : Nat) (w : Bool)
    (rp : Except String Response) (rest : List ServeStep) :
    (serveLoop ip ua (⟨.error (.IncompleteRequest (n + 1)), w, rp⟩ :: rest) =
      (.sentToClient true (make_http_error 400) :: (serveLoop ip ua rest).1,
        (serveLoop ip ua rest).2)) ∧
    (serveLoop ip ua (⟨.error (.IncompleteRequest 0), w, rp⟩ :: rest) =
      ([], true)) := by
  constructor <;> simp [serveLoop, errorStatusCode]

/-- C8: for a non-empty configured upstream list the selector draws an
index that is always within bounds; every configured upstream is a
possible choice (the raw draw equal to its index selects it); and the
choice is uniform: over any whole number `k` of periods of the raw draw,
each index is selected by exactly `k` of the `k * length` draws.  Each
client connection makes its own independent draw: `handleConnection`
consumes one raw value per connection. -/
theorem uniform_upstream_selection (ups : List String) (raw k i : Nat)
    (hn : 0 < ups.length) (hi : i < ups.length) :
    (gen_range ups.length raw < ups.length) ∧
    (connect_to_upstream_choice ups i = ups.getD i "") ∧
    (((Finset.range (k * ups.length)).filter
        (fun r => gen_range ups.length r = i)).card = k) := by
  refine ⟨Nat.mod_lt _ hn, ?_, ?_⟩
  · simp [connect_to_upstream_choice, gen_range, Nat.mod_eq_of_lt hi]
  · simpa [gen_range] using card_range_mul_filter_mod ups.length k i hn hi

/-- C8 witness: the selector over three upstreams, at raw draw 7, period
count 2, index 1. -/
theorem uniform_upstream_selection_witness :
    (gen_range (["a", "b", "c"] : List String).length 7 <
      (["a", "b", "c"] : List String).length) ∧
    (connect_to_upstream_choice ["a", "b", "c"] 1 =
      (["a", "b", "c"] : List String).getD 1 "") ∧
    (((Finset.range (2 * (["a", "b", "c"] : List String).length)).filter
        (fun r => gen_range (["a", "b", "c"] : List String).length r = 1)).card = 2) :=
  uniform_upstream_selection ["a", "b", "c"] 7 2 1 (by decide) (by decide)

/-- C9: the active-health-check interval, active-health-check path, and
max-requests-per-minute configuration fields have no behavioral effect
on the connection handler: two runs whose states differ only in those
three fields, with the same upstream address list, randomness, and
socket oracles, produce identical traces and termination. -/
theorem inert_config_fields (a1 a2 m1 m2 : Nat) (p1 p2 : String)
    (ups : List String) (ip : String) (raw : Nat) (cok : Bool)
    (steps : List ServeStep) :
    handleConnection ⟨a1, p1, m1, ups⟩ ip raw cok steps =
      handleConnection ⟨a2, p2, m2, ups⟩ ip raw cok steps := rfl

/-- C10: the connection handler unwraps `peer_addr` on the client socket
at connection start and inside every `send_response`: when the initial
`peer_addr` call reports an error the connection task panics (the run is
`none`), and under the precondition that the `peer_addr` calls succeed
no unwrap panics — the run is `some` and agrees with the pure handler. -/
theorem peer_addr_unwrap_panic (e : String) (uep : Except String String)
    (st : ProxyState) (ip uip : String) (raw : Nat) (cok : Bool)
    (steps : List ServeStep) :
    (handleConnectionTotal (.error e) uep st raw cok steps = none) ∧
    (handleConnectionTotal (.ok ip) (.ok uip) st raw cok steps =
      some (handleConnection st ip raw cok steps)) := by
  refine ⟨rfl, ?_⟩
  rcases cok with _ | _
  · simp [handleConnectionTotal, handleConnection, send_response_total]
  · simp [handleConnectionTotal, handleConnection, serveLoopTotal_ok]

end LoadBalancer
